import Mathlib

/-!
Verification development for the dual-transport MCP client core of
mcp-superstack.

The development is a shallow embedding of the relevant source files:

* src/client.ts — StdioClientManager (getClient / createClient / disconnect)
  and the callMCPTool result normalizer;
* src/http-client.ts — HTTPMCPClient (sendRequest / initialize / listTools /
  callTool) and HTTPClientManager (getClient / disconnect);
* templates/codex-cli/polydev-stdio-wrapper.js — both generations of the
  stdio wrapper (forward / handle / processLine).

JavaScript Maps are embedded as association lists with the Map operations
(get / set / delete); promise-based cooperative concurrency is embedded as
explicit interleavings of the synchronous segments of each async function
(a segment runs atomically up to its first await, which is the JS event-loop
guarantee); external I/O (fetch, process spawning, JSON.parse of wire data)
is embedded as explicit action traces plus oracle parameters supplying the
outcome of each external operation.
-/

namespace MCPSuperstack

/-! ### Association-list embedding of JavaScript Map -/

/-- Embedding of Map.prototype.get: the value at the first entry with the
given key, if any. -/
def mapGet {α : Type} (k : String) (m : List (String × α)) : Option α :=
  match m.find? (fun p => p.1 == k) with
  | some p => some p.2
  | none => none

/-- Embedding of Map.prototype.delete: remove the entry with the given key.
(On the unique-keyed lists produced by Map semantics, removing every entry
with the key coincides with removing the one entry.) -/
def mapDel {α : Type} (k : String) (m : List (String × α)) : List (String × α) :=
  m.filter (fun p => !(p.1 == k))

/-! ### Result normalizers
(src/client.ts callMCPTool lines 159–171, src/http-client.ts callTool
lines 205–218). The two sources differ: callMCPTool tests
result.content && Array.isArray(result.content) in one step, while
HTTPMCPClient.callTool first tests for a content key and only then
whether its value is an array, returning the content value itself when it
is not one. They are embedded separately. The JSON value universe is a
type parameter V and JSON.parse is a parameter String → Option V. -/

/-- One entry of a tool-call result content array, as the source reads it:
a type tag and a text payload. -/
structure ContentItem where
  type : String
  text : String
  deriving DecidableEq

/-- The four possible shapes of callMCPTool's normalized result. -/
inductive Normalized (V : Type) where
  /-- JSON.parse of the single text entry succeeded. -/
  | parsed (v : V)
  /-- JSON.parse failed: the raw text of the single text entry. -/
  | rawText (s : String)
  /-- The content array, returned unmodified. -/
  | contentList (l : List ContentItem)
  /-- The raw result, returned unmodified. -/
  | raw (v : V)
  deriving DecidableEq

/-- The content-unwrapping step of callMCPTool, translated branch for
branch from the source: the view embeds the single test "result.content
is truthy and an array" (giving the entries); a content array with
exactly one entry of type text is JSON.parsed (the text itself on parse
failure); any other content array is returned unmodified; a result whose
content field is missing, falsy, or not an array is returned
unmodified. -/
def extractContent {V : Type} (parse : String → Option V)
    (view : V → Option (List ContentItem)) (result : V) : Normalized V :=
  match view result with
  | some content =>
    match content with
    | [item] =>
      if item.type = "text" then
        match parse item.text with
        | some v => Normalized.parsed v
        | none => Normalized.rawText item.text
      else Normalized.contentList content
    | _ => Normalized.contentList content
  | none => Normalized.raw result

/-- The claim's literal case analysis of the normalizer: (1) exactly one
text-typed entry: parse it; (2) more than one entry, or entries of non-text
kind: the content list unmodified; (3) otherwise: the raw result
unmodified. -/
def extractContentClaim {V : Type} (parse : String → Option V)
    (view : V → Option (List ContentItem)) (result : V) : Normalized V :=
  match view result with
  | some content =>
    if content.length = 1 ∧ ∀ c ∈ content, c.type = "text" then
      match content with
      | [item] =>
        match parse item.text with
        | some v => Normalized.parsed v
        | none => Normalized.rawText item.text
      | _ => Normalized.raw result
    else if 1 < content.length ∨ ∃ c ∈ content, c.type ≠ "text" then
      Normalized.contentList content
    else
      Normalized.raw result
  | none => Normalized.raw result

/-- The amended specification of callMCPTool's normalizer: exactly one
text-typed entry is parsed (raw text on parse failure); every other
content array — empty included — is returned unmodified; a result
carrying no content array is returned unmodified. -/
def extractContentAmended {V : Type} (parse : String → Option V)
    (view : V → Option (List ContentItem)) (result : V) : Normalized V :=
  match view result with
  | some content =>
    if content.length = 1 ∧ ∀ c ∈ content, c.type = "text" then
      match content with
      | [item] =>
        match parse item.text with
        | some v => Normalized.parsed v
        | none => Normalized.rawText item.text
      | _ => Normalized.raw result
    else
      Normalized.contentList content
  | none => Normalized.raw result

/-- The possible shapes of HTTPMCPClient.callTool's normalized result: it
can additionally return the content field value itself, when that field
exists but its value is not an array. -/
inductive NormalizedH (V : Type) where
  /-- JSON.parse of the single text entry succeeded. -/
  | parsed (v : V)
  /-- JSON.parse failed: the raw text of the single text entry. -/
  | rawText (s : String)
  /-- The content array, returned unmodified. -/
  | contentList (l : List ContentItem)
  /-- The non-array content field value, returned itself. -/
  | contentVal (v : V)
  /-- The raw result, returned unmodified. -/
  | raw (v : V)
  deriving DecidableEq

/-- The content-unwrapping step of HTTPMCPClient.callTool, translated
branch for branch from the source: contentOf embeds "result is a non-null
object with a content key" (giving that field's value) and asArr embeds
Array.isArray (giving the entries). A content array with exactly one
text-typed entry is JSON.parsed (the text itself on parse failure); any
other content array is returned unmodified; a content value that is not
an array is returned itself (the source's return content on a non-array);
a result with no content field is returned unmodified. -/
def extractContentHTTP {V : Type} (parse : String → Option V)
    (contentOf : V → Option V) (asArr : V → Option (List ContentItem))
    (result : V) : NormalizedH V :=
  match contentOf result with
  | some cv =>
    match asArr cv with
    | some content =>
      match content with
      | [item] =>
        if item.type = "text" then
          match parse item.text with
          | some v => NormalizedH.parsed v
          | none => NormalizedH.rawText item.text
        else NormalizedH.contentList content
      | _ => NormalizedH.contentList content
    | none => NormalizedH.contentVal cv
  | none => NormalizedH.raw result

/-- The amended specification of HTTPMCPClient.callTool's normalizer:
same as callMCPTool's on content arrays, but a content field whose value
is not an array is returned itself, and the raw result is returned only
when the content field is absent. -/
def extractContentHTTPAmended {V : Type} (parse : String → Option V)
    (contentOf : V → Option V) (asArr : V → Option (List ContentItem))
    (result : V) : NormalizedH V :=
  match contentOf result with
  | none => NormalizedH.raw result
  | some cv =>
    match asArr cv with
    | none => NormalizedH.contentVal cv
    | some content =>
      if content.length = 1 ∧ ∀ c ∈ content, c.type = "text" then
        match content with
        | [item] =>
          match parse item.text with
          | some v => NormalizedH.parsed v
          | none => NormalizedH.rawText item.text
        | _ => NormalizedH.raw result
      else NormalizedH.contentList content

/-! ### HTTPMCPClient (src/http-client.ts)
State: the requestId counter, the cached initialized flag (field
`inited` here, embedding the source field `initialized`), and serverInfo.
Each sendRequest is one fetch; the oracle NetOutcome supplies the outcome
of the HTTP exchange. -/

/-- State of one HTTPMCPClient: requestId counter (starts at 0), the
cached initialized flag, and the recorded serverInfo. -/
structure HState (V : Type) where
  requestId : Nat
  inited : Bool
  serverInfo : Option V
  deriving DecidableEq

/-- A fresh HTTPMCPClient, as built by the constructor. -/
def HState.start {V : Type} : HState V := ⟨0, false, none⟩

/-- One outbound HTTP POST as the embedding records it: the JSON-RPC method
and id it carries, and the timeout armed on it (none when the source arms
no timer and passes no abort signal to fetch). -/
structure FetchCall where
  rpcMethod : String
  rpcId : Nat
  timeoutMs : Option Nat
  deriving DecidableEq

/-- Oracle for one HTTP exchange: non-2xx status, unparsable body,
JSON-RPC error field, or a result value. -/
inductive NetOutcome (V : Type) where
  | httpErr (status : Nat) (body : String)
  | badJson (msg : String)
  | rpcErr (code : Int) (msg : String)
  | ok (v : V)
  deriving DecidableEq

/-- HTTPMCPClient.sendRequest: mint the next id with a pre-increment of
requestId, perform one fetch with no timeout and no abort signal, then
fail on non-2xx status, propagate a body-parse failure, fail on a JSON-RPC
error field, and otherwise return the result field. -/
def sendReq {V : Type} (st : HState V) (method : String) (net : NetOutcome V) :
    HState V × FetchCall × Except String V :=
  let rid := st.requestId + 1
  (⟨rid, st.inited, st.serverInfo⟩,
   ⟨method, rid, none⟩,
   match net with
   | NetOutcome.httpErr status body =>
     Except.error ("HTTP " ++ toString status ++ ": " ++ body)
   | NetOutcome.badJson msg => Except.error msg
   | NetOutcome.rpcErr code msg =>
     Except.error ("MCP Error " ++ toString code ++ ": " ++ msg)
   | NetOutcome.ok v => Except.ok v)

/-- HTTPMCPClient.initialize: return at once when the cached flag is set;
otherwise send one initialize request and, on success, record serverInfo
and set the flag. Returns the new state, the fetches performed, and the
outcome. -/
def initCall {V : Type} (st : HState V) (net : NetOutcome V) :
    HState V × List FetchCall × Except String Unit :=
  if st.inited then (st, [], Except.ok ())
  else
    let (st1, f, r) := sendReq st "initialize" net
    match r with
    | Except.ok v => (⟨st1.requestId, true, some v⟩, [f], Except.ok ())
    | Except.error e => (st1, [f], Except.error e)

/-- Fetches performed by a sequence of initialize calls, one oracle entry
per call. -/
def initIterFetches {V : Type} : HState V → List (NetOutcome V) → List FetchCall
  | _, [] => []
  | st, net :: rest =>
    let (st1, fs, _) := initCall st net
    fs ++ initIterFetches st1 rest

/-- HTTPMCPClient.listTools: await initialize, then send one tools/list
request. -/
def listToolsCall {V : Type} (st : HState V) (net1 net2 : NetOutcome V) :
    HState V × List FetchCall × Except String V :=
  let (st1, fs, r) := initCall st net1
  match r with
  | Except.error e => (st1, fs, Except.error e)
  | Except.ok _ =>
    let (st2, f, r2) := sendReq st1 "tools/list" net2
    (st2, fs ++ [f], r2)

/-- HTTPMCPClient.callTool: await initialize, then send one tools/call
request and normalize its result with extractContentHTTP. -/
def callToolCall {V : Type} (st : HState V) (net1 net2 : NetOutcome V)
    (parse : String → Option V) (contentOf : V → Option V)
    (asArr : V → Option (List ContentItem)) :
    HState V × List FetchCall × Except String (NormalizedH V) :=
  let (st1, fs, r) := initCall st net1
  match r with
  | Except.error e => (st1, fs, Except.error e)
  | Except.ok _ =>
    let (st2, f, r2) := sendReq st1 "tools/call" net2
    match r2 with
    | Except.error e => (st2, fs ++ [f], Except.error e)
    | Except.ok v =>
      (st2, fs ++ [f], Except.ok (extractContentHTTP parse contentOf asArr v))

/-- The request ids minted by a sequence of sendRequest calls (one
method/oracle pair per call), starting from the given client state. -/
def sendIdsFrom {V : Type} : HState V → List (String × NetOutcome V) → List Nat
  | _, [] => []
  | st, (m, net) :: rest =>
    let (st1, f, _) := sendReq st m net
    f.rpcId :: sendIdsFrom st1 rest

/-- The consecutive naturals s, s+1, ..., s+k-1. -/
def natsFrom : Nat → Nat → List Nat
  | _, 0 => []
  | s, k + 1 => s :: natsFrom (s + 1) k

/-! ### Registry lookups and unknown-server errors
(src/config.ts registries; src/client.ts createClient lines 54–58;
src/http-client.ts HTTPClientManager.getClient lines 245–258). -/

/-- A stdio server descriptor: command and arguments (env elided). -/
structure StdioConf where
  command : String
  args : List String
  deriving DecidableEq

/-- An HTTP server descriptor: endpoint URL (headers elided). -/
structure HTTPConf where
  url : String
  deriving DecidableEq

/-- An I/O action the stdio path could perform: launching the server
process, the connect handshake run inside client.connect, awaiting an
already-in-flight creation (whose own successful trace ends in connect),
and sending one request on the connected session. -/
inductive IOAct where
  | spawn (command : String) (args : List String)
  | connect
  | joinPending
  | send (method : String)
  deriving DecidableEq

/-- The joined key list used in the unknown-server error messages. -/
def availList {α : Type} (reg : List (String × α)) : String :=
  String.intercalate ", " (reg.map Prod.fst)

/-- StdioClientManager.createClient as an I/O trace: look the server up in
stdioServers; when absent, throw the unknown-server error before any
transport exists; when present, spawn the process and connect. -/
def createClientTrace (reg : List (String × StdioConf)) (name : String) :
    Except String (List IOAct) :=
  match mapGet name reg with
  | none =>
    Except.error ("Unknown stdio server: " ++ name ++ ". Available: " ++ availList reg)
  | some cfg => Except.ok [IOAct.spawn cfg.command cfg.args, IOAct.connect]

/-- The I/O actions actually performed by an Except-valued trace: a throw
performs none. -/
def ioOf : Except String (List IOAct) → List IOAct
  | Except.error _ => []
  | Except.ok l => l

/-- HTTPClientManager.getClient: return the cached client when present;
otherwise look the server up in httpServers, throwing the unknown-server
error when absent, and cache a fresh client when present. Performs no
network I/O itself. -/
def httpGetClientS {V : Type} (clients : List (String × HState V))
    (reg : List (String × HTTPConf)) (name : String) :
    Except String (HState V × List (String × HState V)) :=
  match mapGet name clients with
  | some st => Except.ok (st, clients)
  | none =>
    match mapGet name reg with
    | none =>
      Except.error ("Unknown HTTP server: " ++ name ++ ". Available: " ++ availList reg)
    | some _ => Except.ok (HState.start, (name, HState.start) :: clients)

/-- initializeHTTPServer: manager.getClient then client.initialize, with
the fetches it performs. -/
def initHTTPTrace {V : Type} (clients : List (String × HState V))
    (reg : List (String × HTTPConf)) (name : String) (net : NetOutcome V) :
    Except String Unit × List FetchCall :=
  match httpGetClientS clients reg name with
  | Except.error e => (Except.error e, [])
  | Except.ok (st, _) =>
    let (_, fs, r) := initCall st net
    (r, fs)

/-- callHTTPMCPTool: manager.getClient then client.callTool, with the
fetches it performs. -/
def callHTTPToolTrace {V : Type} (clients : List (String × HState V))
    (reg : List (String × HTTPConf)) (name : String) (net1 net2 : NetOutcome V)
    (parse : String → Option V) (contentOf : V → Option V)
    (asArr : V → Option (List ContentItem)) :
    Except String (NormalizedH V) × List FetchCall :=
  match httpGetClientS clients reg name with
  | Except.error e => (Except.error e, [])
  | Except.ok (st, _) =>
    let (_, fs, r) := callToolCall st net1 net2 parse contentOf asArr
    (r, fs)

/-! ### StdioClientManager (src/client.ts)
State: the clients, transports and in-flight-creation maps. getClient's
synchronous segment (lines 26–39, up to its first await) runs atomically
under the JS event loop; a creation settles only later, so n concurrent
first callers are n back-to-back synchronous segments followed by one
settlement. -/

/-- The three maps of the StdioClientManager (clients, transports, and the
in-flight creation map the source calls initializing). Clients, transports
and promises are identified by numbers. -/
structure StdioMgr where
  clients : List (String × Nat)
  transports : List (String × Nat)
  initing : List (String × Nat)
  deriving DecidableEq

/-- What one getClient caller ends up awaiting: a cached client, returned
at once, or the shared outcome of an in-flight creation promise. -/
inductive Awaited where
  | cached (c : Nat)
  | await (p : Nat)
  deriving DecidableEq

/-- The synchronous segment of getClient: return the cached client if
present; else join the in-flight creation if one exists; else start a new
creation (promise id fresh) and record it in the in-flight map. The Bool
reports whether a new createClient was started. -/
def getClientSync (st : StdioMgr) (name : String) (fresh : Nat) :
    Awaited × StdioMgr × Bool :=
  match mapGet name st.clients with
  | some c => (Awaited.cached c, st, false)
  | none =>
    match mapGet name st.initing with
    | some p => (Awaited.await p, st, false)
    | none =>
      (Awaited.await fresh,
       ⟨st.clients, st.transports, (name, fresh) :: st.initing⟩, true)

/-- n concurrent callers of getClient for the same name, each running its
synchronous segment before any creation settles; fresh promise ids are
drawn from fresh upward. Returns what each caller awaits, the manager
state after all arrivals, and how many creations were started. -/
def arrive : Nat → StdioMgr → String → Nat → List Awaited × StdioMgr × Nat
  | 0, st, _, _ => ([], st, 0)
  | n + 1, st, name, fresh =>
    let (a, st1, started) := getClientSync st name fresh
    let (rest, st2, k) := arrive n st1 name (fresh + 1)
    (a :: rest, st2, (if started then 1 else 0) + k)

/-- The value a caller receives once the creation it awaits settles with
the given outcome: a cached client immediately, otherwise the shared
outcome. -/
def deliver (res : Except String Nat) : Awaited → Except String Nat
  | Awaited.cached c => Except.ok c
  | Awaited.await _ => res

/-- Settlement of a successful createClient: the client and transport are
stored (createClient lines 77–78) and getClient deletes the in-flight
entry (line 43). -/
def settleOk (st : StdioMgr) (name : String) (c : Nat) : StdioMgr :=
  ⟨(name, c) :: st.clients, (name, c) :: st.transports, mapDel name st.initing⟩

/-- Settlement of a failed createClient: getClient deletes the in-flight
entry and rethrows (lines 45–47); nothing is cached. -/
def settleErr (st : StdioMgr) (name : String) : StdioMgr :=
  ⟨st.clients, st.transports, mapDel name st.initing⟩

/-- StdioClientManager.disconnect: when a client is cached under the name,
close it and delete the client and transport entries; otherwise do
nothing. Returns the new state and the clients that were closed. -/
def disconnectStdio (name : String) (st : StdioMgr) : StdioMgr × List Nat :=
  match mapGet name st.clients with
  | none => (st, [])
  | some c =>
    (⟨mapDel name st.clients, mapDel name st.transports, st.initing⟩, [c])

/-- HTTPClientManager.disconnect: just delete the cache entry. -/
def disconnectHTTP {V : Type} (name : String) (m : List (String × HState V)) :
    List (String × HState V) :=
  mapDel name m

/-- The I/O trace of a stdio-path operation that obtains the session via
manager.getClient and then sends one request on it (the shared shape of
callMCPTool and listTools in src/client.ts): a cached session is used at
once; an in-flight creation is awaited (pending is the shared outcome of
that creation, whose own successful trace ended in connect) and its
failure rethrown; otherwise createClient runs — throwing for an unknown
server, else spawning and connecting — and only after it resolves is the
request sent. -/
def stdioRequestTrace (reg : List (String × StdioConf)) (st : StdioMgr)
    (pending : Except String Unit) (name method : String) :
    Except String (List IOAct) :=
  match mapGet name st.clients with
  | some _ => Except.ok [IOAct.send method]
  | none =>
    match mapGet name st.initing with
    | some _ =>
      match pending with
      | Except.error e => Except.error e
      | Except.ok _ => Except.ok [IOAct.joinPending, IOAct.send method]
    | none =>
      match createClientTrace reg name with
      | Except.error e => Except.error e
      | Except.ok io => Except.ok (io ++ [IOAct.send method])

/-- callMCPTool's I/O trace: getClient, then the tools/call request. -/
def callMCPToolTrace (reg : List (String × StdioConf)) (st : StdioMgr)
    (pending : Except String Unit) (name : String) : Except String (List IOAct) :=
  stdioRequestTrace reg st pending name "tools/call"

/-- listTools' I/O trace: getClient, then the tools/list request. -/
def listToolsTrace (reg : List (String × StdioConf)) (st : StdioMgr)
    (pending : Except String Unit) (name : String) : Except String (List IOAct) :=
  stdioRequestTrace reg st pending name "tools/list"

/-! ### polydev-stdio-wrapper.js, versions 2.1 and 1
(templates/codex-cli/polydev-stdio-wrapper.js). Requests are embedded by
their method and id fields; a missing field is none, and a JS-falsy empty
method string takes the same branch as a missing one. The forwarded remote
response type is a parameter R; JSON.parse of an inbound line is a
parameter returning the parse-error message on failure. -/

/-- Embedding of String.prototype.trim for the wrapper's blank-line check:
drop leading and trailing whitespace. -/
def jsTrim (s : String) : String :=
  ⟨((s.data.dropWhile Char.isWhitespace).reverse.dropWhile Char.isWhitespace).reverse⟩

/-- An inbound JSON-RPC message as the wrapper destructures it. -/
structure WReq where
  method : Option String
  id : Option Nat
  deriving DecidableEq

/-- An outbound wrapper message. internalErr is the envelope processLine
writes from its catch block: id null, error code -32603 with the thrown
message. -/
inductive WOut (R : Type) where
  | initRes (id : Option Nat) (protocolVersion : String)
  | pingRes (id : Option Nat)
  | toolsListRes (id : Option Nat)
  | forwarded (r : R)
  | methodNotFound (id : Option Nat) (msg : String)
  | invalidReq (id : Option Nat)
  | internalErr (msg : String)
  deriving DecidableEq

/-- handle of wrapper v2.1 (lines 137–183): initialize, the
notifications/initialized no-response branch (ok none embeds returning
null), ping, tools/list answered locally; tools/call forwarded (a throw
from forward propagates as Except.error); a remaining truthy method gets
a -32601 error, a falsy one a -32600 error. -/
def handleV2 {R : Type} (fwd : WReq → Except String R) (req : WReq) :
    Except String (Option (WOut R)) :=
  match req.method with
  | some "initialize" => Except.ok (some (WOut.initRes req.id "2025-06-18"))
  | some "notifications/initialized" => Except.ok none
  | some "ping" => Except.ok (some (WOut.pingRes req.id))
  | some "tools/list" => Except.ok (some (WOut.toolsListRes req.id))
  | some "tools/call" =>
    match fwd req with
    | Except.ok r => Except.ok (some (WOut.forwarded r))
    | Except.error e => Except.error e
  | some m =>
    if m = "" then Except.ok (some (WOut.invalidReq req.id))
    else Except.ok (some (WOut.methodNotFound req.id ("Method not found: " ++ m)))
  | none => Except.ok (some (WOut.invalidReq req.id))

/-- handle of wrapper v1 (lines 367–402): initialize and tools/list
answered locally; every other truthy method — notifications included — is
forwarded to the remote server and its response returned; a falsy method
gets the -32601 error. -/
def handleV1 {R : Type} (fwd : WReq → Except String R) (req : WReq) :
    Except String (WOut R) :=
  match req.method with
  | some "initialize" => Except.ok (WOut.initRes req.id "2024-11-05")
  | some "tools/list" => Except.ok (WOut.toolsListRes req.id)
  | some m =>
    if m = "" then Except.ok (WOut.methodNotFound req.id "Method not found")
    else (fwd req).map WOut.forwarded
  | none => Except.ok (WOut.methodNotFound req.id "Method not found")

/-- processLine of wrapper v2.1 (lines 202–223): skip blank lines; parse
the line, handing a parse failure to the catch block, which responds with
the internal-error envelope; a null handle result sends nothing, any other
result is sent; a throw from handle is also answered from the catch
block. Returns the messages written to stdout for this line. -/
def processLineV2 {R : Type} (parse : String → Except String WReq)
    (fwd : WReq → Except String R) (line : String) : List (WOut R) :=
  if jsTrim line = "" then []
  else
    match parse line with
    | Except.error e => [WOut.internalErr e]
    | Except.ok req =>
      match handleV2 fwd req with
      | Except.ok none => []
      | Except.ok (some out) => [out]
      | Except.error e => [WOut.internalErr e]

/-- The stream loop of wrapper v2.1: each complete line is processed
independently; the writes are in line order for a deterministic oracle. -/
def processLinesV2 {R : Type} (parse : String → Except String WReq)
    (fwd : WReq → Except String R) : List String → List (WOut R)
  | [] => []
  | l :: rest => processLineV2 parse fwd l ++ processLinesV2 parse fwd rest

/-- Oracle for one forward exchange of wrapper v2.1: the 180-second timer
fired first (fetch aborted), the body was not JSON, the status was
non-2xx, or a response envelope arrived. -/
inductive FwdOutcome (R : Type) where
  | timedOut
  | badJson (raw : String)
  | notOk (status : Nat) (raw : String)
  | ok (r : R)
  deriving DecidableEq

/-- forward of wrapper v2.1 (lines 81–123): outcome of the bounded fetch.
An AbortError from the fired timer becomes the timeout error; an
unparsable body and a non-2xx status become their respective errors. -/
def forwardResult {R : Type} : FwdOutcome R → Except String R
  | FwdOutcome.timedOut => Except.error "Request timed out after 180 seconds"
  | FwdOutcome.badJson raw =>
    Except.error ("Invalid JSON from server: " ++ raw.take 200)
  | FwdOutcome.notOk status raw =>
    Except.error ("Remote MCP error " ++ toString status ++ ": " ++ raw.take 200)
  | FwdOutcome.ok r => Except.ok r

/-- Whether forward's AbortController aborted the underlying fetch: exactly
when the timer fired. -/
def forwardAborted {R : Type} : FwdOutcome R → Bool
  | FwdOutcome.timedOut => true
  | _ => false

/-- The timeout armed on a wrapper fetch. -/
structure WFetch where
  timeoutMs : Option Nat
  deriving DecidableEq

/-- The fetch of forward in wrapper v2.1: bounded by
setTimeout(() => controller.abort(), 180000). -/
def forwardFetch : WFetch :=
  ⟨some 180000⟩

/-- The fetch of forward in wrapper v1: no timer, no abort signal. -/
def forwardFetchV1 : WFetch :=
  ⟨none⟩

/-! ### Helper lemmas -/

theorem mapGet_cons {α : Type} (k : String) (p : String × α) (m : List (String × α)) :
    mapGet k (p :: m) = if p.1 = k then some p.2 else mapGet k m := by
  by_cases h : p.1 = k <;> simp [mapGet, List.find?_cons, h]

theorem mapGet_cons_self {α : Type} (k : String) (v : α) (m : List (String × α)) :
    mapGet k ((k, v) :: m) = some v := by
  simp [mapGet_cons]

theorem mapDel_cons {α : Type} (k : String) (p : String × α) (m : List (String × α)) :
    mapDel k (p :: m) = if p.1 = k then mapDel k m else p :: mapDel k m := by
  by_cases h : p.1 = k <;> simp [mapDel, List.filter_cons, h]

theorem mapGet_mapDel_self {α : Type} (k : String) (m : List (String × α)) :
    mapGet k (mapDel k m) = none := by
  induction m with
  | nil => rfl
  | cons p m ih =>
    by_cases hpk : p.1 = k
    · simp [mapDel_cons, hpk, ih]
    · simp [mapDel_cons, hpk, mapGet_cons, ih]

theorem mapGet_mapDel_ne {α : Type} {k k' : String} (m : List (String × α))
    (h : k' ≠ k) : mapGet k' (mapDel k m) = mapGet k' m := by
  induction m with
  | nil => rfl
  | cons p m ih =>
    by_cases hpk : p.1 = k
    · simp [mapDel_cons, hpk, mapGet_cons, Ne.symm h, ih]
    · simp [mapDel_cons, hpk, mapGet_cons, ih]

theorem mapDel_of_get_none {α : Type} {k : String} :
    ∀ {m : List (String × α)}, mapGet k m = none → mapDel k m = m := by
  intro m
  induction m with
  | nil => intro _; rfl
  | cons p m ih =>
    intro h
    rw [mapGet_cons] at h
    by_cases hpk : p.1 = k
    · simp [hpk] at h
    · rw [if_neg hpk] at h
      simp [mapDel_cons, hpk, ih h]

theorem natsFrom_mem {s k x : Nat} (h : x ∈ natsFrom s k) : s ≤ x := by
  induction k generalizing s with
  | zero => cases h
  | succ k ih =>
    rcases List.mem_cons.mp h with h | h
    · exact h ▸ Nat.le_refl s
    · exact Nat.le_trans (Nat.le_succ s) (ih h)

theorem natsFrom_pairwise (s k : Nat) : List.Pairwise (· < ·) (natsFrom s k) := by
  induction k generalizing s with
  | zero => exact List.Pairwise.nil
  | succ k ih =>
    refine List.pairwise_cons.mpr ⟨fun x hx => ?_, ih (s + 1)⟩
    exact Nat.lt_of_lt_of_le (Nat.lt_succ_self s) (natsFrom_mem hx)

theorem natsFrom_nodup (s k : Nat) : (natsFrom s k).Nodup :=
  (natsFrom_pairwise s k).imp Nat.ne_of_lt

theorem sendIdsFrom_eq {V : Type} (calls : List (String × NetOutcome V))
    (st : HState V) :
    sendIdsFrom st calls = natsFrom (st.requestId + 1) calls.length := by
  induction calls generalizing st with
  | nil => rfl
  | cons c rest ih =>
    rcases c with ⟨m, net⟩
    simpa [sendIdsFrom, sendReq, natsFrom] using ih ⟨st.requestId + 1, st.inited, st.serverInfo⟩

theorem initIterFetches_of_inited {V : Type} {st : HState V}
    (h : st.inited = true) (nets : List (NetOutcome V)) :
    initIterFetches st nets = [] := by
  induction nets with
  | nil => rfl
  | cons net rest ih => simp [initIterFetches, initCall, h, ih]

theorem arrive_joined (n : Nat) (st : StdioMgr) (name : String) (fresh p : Nat)
    (hc : mapGet name st.clients = none) (hi : mapGet name st.initing = some p) :
    arrive n st name fresh = (List.replicate n (Awaited.await p), st, 0) := by
  induction n generalizing fresh with
  | zero => rfl
  | succ n ih => simp [arrive, getClientSync, hc, hi, ih, List.replicate]

theorem processLinesV2_append {R : Type} (parse : String → Except String WReq)
    (fwd : WReq → Except String R) (xs ys : List String) :
    processLinesV2 parse fwd (xs ++ ys)
      = processLinesV2 parse fwd xs ++ processLinesV2 parse fwd ys := by
  induction xs with
  | nil => rfl
  | cons l xs ih => simp [processLinesV2, ih]

/-! ### Claim theorems -/

/-- C2 counterexample: on a result whose content array is empty, both
normalizers return the empty content list unmodified, while the claim's
case analysis (exactly-one-text / more-than-one-or-non-text / otherwise
raw) puts the empty array in its otherwise case and predicts the raw
result; and on a result whose content field (here the value 2 of result
1) exists but is not an array, HTTPMCPClient.callTool returns the content
value itself where the claim again predicts the raw result. -/
theorem c2_counterexample :
    extractContent (fun _ => none) (fun _ : Nat => some []) 0
      = Normalized.contentList []
    ∧ extractContentClaim (fun _ => none) (fun _ : Nat => some []) 0
      = Normalized.raw 0
    ∧ (Normalized.contentList ([] : List ContentItem) : Normalized Nat)
      ≠ Normalized.raw 0
    ∧ extractContentHTTP (V := Nat) (fun _ => none)
        (fun r => if r = 1 then some 2 else none) (fun _ => none) 1
      = NormalizedH.contentVal 2
    ∧ NormalizedH.contentVal (2 : Nat) ≠ NormalizedH.raw 1 := by
  refine ⟨rfl, ?_, by simp, by simp [extractContentHTTP], by simp⟩
  simp [extractContentClaim]

/-- C2 (amended): callMCPTool's normalizer parses the text of a content
array with exactly one text-typed entry (raw text on parse failure),
returns every other content array — empty included — unmodified, and
returns the raw result when the content field is missing, falsy or not an
array; HTTPMCPClient.callTool's normalizer treats content arrays the same
way but, when the content field exists and is not an array, returns that
content value itself, returning the raw result only when the content
field is absent. -/
theorem c2_normalizer {V : Type} (parse : String → Option V)
    (view : V → Option (List ContentItem)) (contentOf : V → Option V)
    (asArr : V → Option (List ContentItem)) (result r2 cv : V) :
    extractContent parse view result = extractContentAmended parse view result
    ∧ extractContentHTTP parse contentOf asArr result
        = extractContentHTTPAmended parse contentOf asArr result
    ∧ (view r2 = none → extractContent parse view r2 = Normalized.raw r2)
    ∧ (contentOf r2 = some cv → asArr cv = none →
        extractContentHTTP parse contentOf asArr r2 = NormalizedH.contentVal cv) := by
  refine ⟨?_, ?_, fun h => by simp [extractContent, h],
    fun h1 h2 => by simp [extractContentHTTP, h1, h2]⟩
  · rcases hv : view result with _ | content
    · simp [extractContent, extractContentAmended, hv]
    · rcases content with _ | ⟨a, _ | ⟨b, l⟩⟩
      · simp [extractContent, extractContentAmended, hv]
      · by_cases h : a.type = "text" <;>
          simp [extractContent, extractContentAmended, hv, h]
      · simp [extractContent, extractContentAmended, hv]
  · rcases hc : contentOf result with _ | cv2
    · simp [extractContentHTTP, extractContentHTTPAmended, hc]
    · rcases ha : asArr cv2 with _ | content
      · simp [extractContentHTTP, extractContentHTTPAmended, hc, ha]
      · rcases content with _ | ⟨a, _ | ⟨b, l⟩⟩
        · simp [extractContentHTTP, extractContentHTTPAmended, hc, ha]
        · by_cases h : a.type = "text" <;>
            simp [extractContentHTTP, extractContentHTTPAmended, hc, ha, h]
        · simp [extractContentHTTP, extractContentHTTPAmended, hc, ha]

/-- C4: the request ids a session mints for a sequence of sendRequest
calls are exactly 1, 2, ..., k: they start at 1, are strictly increasing,
and are never reused within the session's lifetime, so no two in-flight
calls on the same session share an id. -/
theorem c4_request_ids {V : Type} (calls : List (String × NetOutcome V)) :
    sendIdsFrom HState.start calls = natsFrom 1 calls.length
    ∧ List.Pairwise (· < ·) (sendIdsFrom HState.start calls)
    ∧ (sendIdsFrom HState.start calls).Nodup
    ∧ ∀ (c : String × NetOutcome V) (cs : List (String × NetOutcome V)),
        (sendIdsFrom HState.start (c :: cs)).head? = some 1 := by
  have h := sendIdsFrom_eq calls (HState.start (V := V))
  refine ⟨h, ?_, ?_, ?_⟩
  · rw [h]; exact natsFrom_pairwise 1 calls.length
  · rw [h]; exact natsFrom_nodup 1 calls.length
  · intro c cs
    rw [sendIdsFrom_eq]
    simp [natsFrom, HState.start]

/-- C5: once the cached initialized flag is set, initialize returns without
any network request and leaves the client unchanged; when the flag is not
set, initialize performs exactly one POST carrying the initialize method,
and on success records serverInfo and sets the flag; after that, any
sequence of further initialize calls performs no network request at all,
so the whole sequence performs exactly the one POST. -/
theorem c5_init_idempotent {V : Type} (st : HState V) (net : NetOutcome V) :
    (st.inited = true → initCall st net = (st, [], Except.ok ()))
    ∧ (st.inited = false →
        ((initCall st net).2.1.map FetchCall.rpcMethod = ["initialize"]
        ∧ ∀ v : V, net = NetOutcome.ok v →
            (initCall st net).1.inited = true
            ∧ (initCall st net).1.serverInfo = some v))
    ∧ (∀ nets : List (NetOutcome V), st.inited = true →
        initIterFetches st nets = [])
    ∧ (∀ (v : V) (nets : List (NetOutcome V)),
        st.inited = false → net = NetOutcome.ok v →
        initIterFetches st (net :: nets) = (initCall st net).2.1) := by
  refine ⟨fun h => by simp [initCall, h], fun h => ⟨?_, ?_⟩, ?_, ?_⟩
  · cases net <;> simp [initCall, h, sendReq]
  · rintro v rfl
    simp [initCall, h, sendReq]
  · intro nets h
    exact initIterFetches_of_inited h nets
  · rintro v nets h rfl
    have h1 : (initCall st (NetOutcome.ok v)).1.inited = true := by
      simp [initCall, h, sendReq]
    simp only [initIterFetches]
    rw [initIterFetches_of_inited h1 nets, List.append_nil]

/-- C10: on both transports a tool request is never sent ahead of a
completed handshake. HTTP: callTool and listTools first await initialize —
when the flag is already set they send only the tool request; when it is
not set and the handshake succeeds they send the initialize POST strictly
before the tool POST and set the flag; when the handshake fails they send
no tool request at all and surface the error. Stdio: callMCPTool and
listTools first await getClient — a cached session is used directly (its
creation ended in connect); a fresh creation spawns and connects strictly
before the tool request is sent; an unknown server or a failed in-flight
creation surfaces the error with no tool request sent; a successful
in-flight creation is joined before the send. -/
theorem c10_auto_init {V : Type} (st : HState V) (net1 net2 : NetOutcome V)
    (parse : String → Option V) (contentOf : V → Option V)
    (asArr : V → Option (List ContentItem)) :
    (st.inited = true →
      (callToolCall st net1 net2 parse contentOf asArr).2.1.map FetchCall.rpcMethod
          = ["tools/call"]
      ∧ (listToolsCall st net1 net2).2.1.map FetchCall.rpcMethod
          = ["tools/list"])
    ∧ (∀ v : V, st.inited = false → net1 = NetOutcome.ok v →
      (callToolCall st net1 net2 parse contentOf asArr).2.1.map FetchCall.rpcMethod
          = ["initialize", "tools/call"]
      ∧ (callToolCall st net1 net2 parse contentOf asArr).1.inited = true
      ∧ (listToolsCall st net1 net2).2.1.map FetchCall.rpcMethod
          = ["initialize", "tools/list"])
    ∧ (st.inited = false → (∀ v : V, net1 ≠ NetOutcome.ok v) →
      (callToolCall st net1 net2 parse contentOf asArr).2.1.map FetchCall.rpcMethod
          = ["initialize"]
      ∧ (∃ e, (callToolCall st net1 net2 parse contentOf asArr).2.2 = Except.error e)
      ∧ (listToolsCall st net1 net2).2.1.map FetchCall.rpcMethod
          = ["initialize"])
    ∧ (∀ (reg : List (String × StdioConf)) (sm : StdioMgr)
        (pending : Except String Unit) (name : String) (cfg : StdioConf),
        mapGet name sm.clients = none → mapGet name sm.initing = none →
        mapGet name reg = some cfg →
        callMCPToolTrace reg sm pending name
          = Except.ok [IOAct.spawn cfg.command cfg.args, IOAct.connect,
              IOAct.send "tools/call"]
        ∧ listToolsTrace reg sm pending name
          = Except.ok [IOAct.spawn cfg.command cfg.args, IOAct.connect,
              IOAct.send "tools/list"])
    ∧ (∀ (reg : List (String × StdioConf)) (sm : StdioMgr)
        (pending : Except String Unit) (name : String),
        mapGet name sm.clients = none → mapGet name sm.initing = none →
        mapGet name reg = none →
        callMCPToolTrace reg sm pending name
          = Except.error ("Unknown stdio server: " ++ name ++ ". Available: "
              ++ availList reg)
        ∧ listToolsTrace reg sm pending name
          = Except.error ("Unknown stdio server: " ++ name ++ ". Available: "
              ++ availList reg))
    ∧ (∀ (reg : List (String × StdioConf)) (sm : StdioMgr) (name : String)
        (p : Nat) (e : String),
        mapGet name sm.clients = none → mapGet name sm.initing = some p →
        callMCPToolTrace reg sm (Except.error e) name = Except.error e
        ∧ callMCPToolTrace reg sm (Except.ok ()) name
          = Except.ok [IOAct.joinPending, IOAct.send "tools/call"])
    ∧ (∀ (reg : List (String × StdioConf)) (sm : StdioMgr)
        (pending : Except String Unit) (name : String) (c : Nat),
        mapGet name sm.clients = some c →
        callMCPToolTrace reg sm pending name
          = Except.ok [IOAct.send "tools/call"]) := by
  refine ⟨fun h => ?_, ?_, fun h hne => ?_, ?_, ?_, ?_, ?_⟩
  · cases net2 <;>
      simp [callToolCall, listToolsCall, initCall, h, sendReq]
  · rintro v h rfl
    cases net2 <;>
      simp [callToolCall, listToolsCall, initCall, h, sendReq]
  · cases net1 with
    | ok v => exact absurd rfl (hne v)
    | httpErr status body =>
      simp [callToolCall, listToolsCall, initCall, h, sendReq]
    | badJson msg =>
      simp [callToolCall, listToolsCall, initCall, h, sendReq]
    | rpcErr code msg =>
      simp [callToolCall, listToolsCall, initCall, h, sendReq]
  · intro reg sm pending name cfg h1 h2 h3
    constructor <;>
      simp [callMCPToolTrace, listToolsTrace, stdioRequestTrace,
        createClientTrace, h1, h2, h3]
  · intro reg sm pending name h1 h2 h3
    constructor <;>
      simp [callMCPToolTrace, listToolsTrace, stdioRequestTrace,
        createClientTrace, h1, h2, h3]
  · intro reg sm name p e h1 h2
    constructor <;>
      simp [callMCPToolTrace, stdioRequestTrace, h1, h2]
  · intro reg sm pending name c h1
    simp [callMCPToolTrace, stdioRequestTrace, h1]

/-- C1: when n+1 callers concurrently request the session of a server that
is neither cached nor being created, exactly one createClient is started;
every caller awaits that same in-flight creation, so all receive the same
outcome once it settles; on success the client is cached under the name
and the in-flight entry removed; on failure all callers receive the same
failure, the client cache is left exactly as it was — the server stays
uncached — and the in-flight entry is removed. -/
theorem c1_single_flight (st : StdioMgr) (name : String) (n fresh c : Nat)
    (hc : mapGet name st.clients = none) (hi : mapGet name st.initing = none) :
    (arrive (n + 1) st name fresh).2.2 = 1
    ∧ (arrive (n + 1) st name fresh).1
        = List.replicate (n + 1) (Awaited.await fresh)
    ∧ (∀ res : Except String Nat,
        (arrive (n + 1) st name fresh).1.map (deliver res)
          = List.replicate (n + 1) res)
    ∧ mapGet name (settleOk (arrive (n + 1) st name fresh).2.1 name c).clients
        = some c
    ∧ mapGet name (settleOk (arrive (n + 1) st name fresh).2.1 name c).initing
        = none
    ∧ (settleErr (arrive (n + 1) st name fresh).2.1 name).clients = st.clients
    ∧ mapGet name (settleErr (arrive (n + 1) st name fresh).2.1 name).clients
        = none
    ∧ mapGet name (settleErr (arrive (n + 1) st name fresh).2.1 name).initing
        = none := by
  have hstep : getClientSync st name fresh
      = (Awaited.await fresh,
         ⟨st.clients, st.transports, (name, fresh) :: st.initing⟩, true) := by
    simp [getClientSync, hc, hi]
  have h1 : mapGet name
      ((⟨st.clients, st.transports, (name, fresh) :: st.initing⟩ : StdioMgr)).initing
      = some fresh := mapGet_cons_self name fresh st.initing
  have harr : arrive n ⟨st.clients, st.transports, (name, fresh) :: st.initing⟩
      name (fresh + 1)
      = (List.replicate n (Awaited.await fresh),
         ⟨st.clients, st.transports, (name, fresh) :: st.initing⟩, 0) :=
    arrive_joined n _ name (fresh + 1) fresh hc h1
  have hR : arrive (n + 1) st name fresh
      = (Awaited.await fresh :: List.replicate n (Awaited.await fresh),
         ⟨st.clients, st.transports, (name, fresh) :: st.initing⟩, 1) := by
    simp [arrive, hstep, harr]
  refine ⟨by simp [hR], by simp [hR, List.replicate], fun res => ?_,
    ?_, ?_, ?_, ?_, ?_⟩
  · simp [hR, deliver, List.replicate]
  · simp [hR, settleOk, mapGet_cons_self]
  · simp [hR, settleOk, mapGet_mapDel_self]
  · simp [hR, settleErr]
  · simpa [hR, settleErr] using hc
  · simp [hR, settleErr, mapGet_mapDel_self]

/-- C3: a server identifier absent from both registries fails fast:
createClient throws the configuration error naming the unknown stdio
server before any process is spawned (its I/O trace is empty), the HTTP
manager's getClient throws the configuration error naming the unknown
HTTP server, and initializeHTTPServer and callHTTPMCPTool propagate that
error having performed no network request. -/
theorem c3_unknown_server {V : Type} (reg : List (String × StdioConf))
    (hreg : List (String × HTTPConf)) (clients : List (String × HState V))
    (name : String) (net1 net2 : NetOutcome V) (parse : String → Option V)
    (contentOf : V → Option V) (asArr : V → Option (List ContentItem))
    (h1 : mapGet name reg = none) (h2 : mapGet name hreg = none)
    (h3 : mapGet name clients = none) :
    createClientTrace reg name
      = Except.error
          ("Unknown stdio server: " ++ name ++ ". Available: " ++ availList reg)
    ∧ ioOf (createClientTrace reg name) = []
    ∧ httpGetClientS clients hreg name
      = Except.error
          ("Unknown HTTP server: " ++ name ++ ". Available: " ++ availList hreg)
    ∧ initHTTPTrace clients hreg name net1
      = (Except.error
          ("Unknown HTTP server: " ++ name ++ ". Available: " ++ availList hreg), [])
    ∧ callHTTPToolTrace clients hreg name net1 net2 parse contentOf asArr
      = (Except.error
          ("Unknown HTTP server: " ++ name ++ ". Available: " ++ availList hreg), []) := by
  refine ⟨by simp [createClientTrace, h1], ?_, ?_, ?_, ?_⟩
  · simp [createClientTrace, h1, ioOf]
  · simp [httpGetClientS, h2, h3]
  · simp [initHTTPTrace, httpGetClientS, h2, h3]
  · simp [callHTTPToolTrace, httpGetClientS, h2, h3]

/-- C8: disconnect is idempotent on both managers: disconnecting a name
with no cached client is a no-op that closes nothing and leaves the state
unchanged; a second disconnect of the same name after a first is a no-op,
so two disconnects in a row equal one; and a disconnect never changes the
entry of any other server in the clients or transports caches; likewise
for the HTTP manager's cache. -/
theorem c8_disconnect_idempotent :
    (∀ (st : StdioMgr) (name : String), mapGet name st.clients = none →
        disconnectStdio name st = (st, []))
    ∧ (∀ (st : StdioMgr) (name : String),
        disconnectStdio name (disconnectStdio name st).1
          = ((disconnectStdio name st).1, []))
    ∧ (∀ (st : StdioMgr) (name k : String), k ≠ name →
        mapGet k (disconnectStdio name st).1.clients = mapGet k st.clients
        ∧ mapGet k (disconnectStdio name st).1.transports
            = mapGet k st.transports)
    ∧ (∀ {V : Type} (m : List (String × HState V)) (name : String),
        mapGet name m = none → disconnectHTTP name m = m)
    ∧ (∀ {V : Type} (m : List (String × HState V)) (name : String),
        disconnectHTTP name (disconnectHTTP name m) = disconnectHTTP name m)
    ∧ (∀ {V : Type} (m : List (String × HState V)) (name k : String),
        k ≠ name → mapGet k (disconnectHTTP name m) = mapGet k m) := by
  have hnone : ∀ (st : StdioMgr) (name : String),
      mapGet name st.clients = none → disconnectStdio name st = (st, []) := by
    intro st name h
    simp [disconnectStdio, h]
  refine ⟨hnone, ?_, ?_, ?_, ?_, ?_⟩
  · intro st name
    rcases hm : mapGet name st.clients with _ | c
    · rw [hnone st name hm]
      exact hnone st name hm
    · have h1 : (disconnectStdio name st).1
          = ⟨mapDel name st.clients, mapDel name st.transports, st.initing⟩ := by
        simp [disconnectStdio, hm]
      rw [h1]
      exact hnone _ name (mapGet_mapDel_self name st.clients)
  · intro st name k hk
    rcases hm : mapGet name st.clients with _ | c
    · rw [hnone st name hm]
      exact ⟨rfl, rfl⟩
    · have h1 : (disconnectStdio name st).1
          = ⟨mapDel name st.clients, mapDel name st.transports, st.initing⟩ := by
        simp [disconnectStdio, hm]
      rw [h1]
      exact ⟨mapGet_mapDel_ne st.clients hk, mapGet_mapDel_ne st.transports hk⟩
  · intro V m name h
    exact mapDel_of_get_none h
  · intro V m name
    have h := mapGet_mapDel_self name m
    exact mapDel_of_get_none h
  · intro V m name k hk
    exact mapGet_mapDel_ne m hk

/-- C6 counterexample: HTTPMCPClient.sendRequest performs its POST with no
timeout and no abort signal, so it is not the case that every outbound
call on the remote (HTTP) transport is bounded by an explicit timeout. -/
theorem c6_counterexample :
    (sendReq (V := Nat) HState.start "tools/call" (NetOutcome.ok 0)).2.1.timeoutMs
      = none
    ∧ ¬ ∀ (s : HState Nat) (m : String) (o : NetOutcome Nat),
        ((sendReq s m o).2.1.timeoutMs).isSome = true := by
  refine ⟨rfl, fun h => ?_⟩
  have := h HState.start "tools/call" (NetOutcome.ok 0)
  simp [sendReq] at this

/-- C6 (amended): only the codex wrapper's forward bounds its remote call:
its fetch is armed with a 180000 ms abort timer; when the timer fires
first the call fails with the timeout error and the underlying fetch is
aborted (and only then), and the wrapper stays usable — the timed-out
tools/call line is answered with an error envelope and subsequent lines
are processed as before. HTTPMCPClient.sendRequest, by contrast, performs
every POST with no timeout and no abort signal. -/
theorem c6_timeout {R : Type} :
    forwardFetch.timeoutMs = some 180000
    ∧ forwardResult (R := R) FwdOutcome.timedOut
        = Except.error "Request timed out after 180 seconds"
    ∧ forwardAborted (R := R) FwdOutcome.timedOut = true
    ∧ (∀ o : FwdOutcome R, forwardAborted o = true → o = FwdOutcome.timedOut)
    ∧ (∀ (s : HState R) (m : String) (o : NetOutcome R),
        (sendReq s m o).2.1.timeoutMs = none)
    ∧ ∀ (parse : String → Except String WReq) (line : String)
        (post : List String),
        jsTrim line ≠ "" →
        parse line = Except.ok ⟨some "tools/call", some 1⟩ →
        processLinesV2 parse
            (fun _ => forwardResult (R := R) FwdOutcome.timedOut) (line :: post)
          = WOut.internalErr "Request timed out after 180 seconds"
            :: processLinesV2 parse
                (fun _ => forwardResult FwdOutcome.timedOut) post := by
  refine ⟨rfl, rfl, rfl, ?_, fun s m o => rfl, ?_⟩
  · intro o h
    cases o with
    | timedOut => rfl
    | badJson raw => simp [forwardAborted] at h
    | notOk status raw => simp [forwardAborted] at h
    | ok r => simp [forwardAborted] at h
  · intro parse line post hline hparse
    simp [processLinesV2, processLineV2, hline, hparse, handleV2, forwardResult]

/-- C7 counterexample: a malformed inbound line is not dropped without a
response: processLine's catch block answers it with an internal-error
envelope (id null, code -32603) carrying the parse-error message. -/
theorem c7_counterexample :
    processLineV2 (R := Nat)
        (fun _ => Except.error "Unexpected token o in JSON at position 1")
        (fun _ => Except.ok 0) "oops"
      = [WOut.internalErr "Unexpected token o in JSON at position 1"]
    ∧ processLineV2 (R := Nat)
        (fun _ => Except.error "Unexpected token o in JSON at position 1")
        (fun _ => Except.ok 0) "oops" ≠ [] := by
  have ht : jsTrim "oops" = "oops" := rfl
  constructor
  · simp [processLineV2, ht]
  · simp [processLineV2, ht]

/-- C7 (amended): a malformed inbound line (one JSON.parse rejects) is
logged and answered with a single internal-error envelope (id null, code
-32603) carrying the parse-error message; it does not crash the stream:
inserting such a line anywhere leaves the processing of every other line
unchanged, only adding that one envelope. -/
theorem c7_malformed_line {R : Type} (parse : String → Except String WReq)
    (fwd : WReq → Except String R) (line msg : String)
    (hline : jsTrim line ≠ "") (hparse : parse line = Except.error msg) :
    processLineV2 parse fwd line = [WOut.internalErr msg]
    ∧ ∀ pre post : List String,
        processLinesV2 parse fwd (pre ++ line :: post)
          = processLinesV2 parse fwd pre
            ++ WOut.internalErr msg :: processLinesV2 parse fwd post := by
  have h1 : processLineV2 parse fwd line = [WOut.internalErr msg] := by
    simp [processLineV2, hline, hparse]
  refine ⟨h1, fun pre post => ?_⟩
  rw [processLinesV2_append, processLinesV2, h1]
  rfl

/-- C9 counterexample: a no-id message whose method is ping is answered:
handle returns a reply envelope rather than null, and processLine writes
it, so it is false that the receiver never writes a response for every
message with no id. -/
theorem c9_counterexample :
    handleV2 (R := Nat) (fun _ => Except.ok 0) ⟨some "ping", none⟩
      = Except.ok (some (WOut.pingRes none))
    ∧ handleV2 (R := Nat) (fun _ => Except.ok 0) ⟨some "ping", none⟩
      ≠ Except.ok none
    ∧ processLineV2 (R := Nat) (fun _ => Except.ok ⟨some "ping", none⟩)
        (fun _ => Except.ok 0) "x"
      = [WOut.pingRes none] := by
  refine ⟨rfl, ?_, ?_⟩
  · intro h
    simp [handleV2] at h
  · have ht : jsTrim "x" = "x" := rfl
    simp [processLineV2, handleV2, ht]

/-- C9 (amended): only the notifications/initialized notification is never
answered: v2.1's handle returns null exactly for that method (whatever the
id), and processLine then writes nothing for it; every other inbound
message — a no-id ping included — takes its method's branch and can
produce a reply, and the v1 wrapper even forwards a
notifications/initialized message to the remote server and returns the
forwarded response. -/
theorem c9_notifications {R : Type} (fwd : WReq → Except String R) :
    (∀ i : Option Nat,
        handleV2 fwd ⟨some "notifications/initialized", i⟩ = Except.ok none)
    ∧ (∀ (parse : String → Except String WReq) (line : String) (i : Option Nat),
        jsTrim line ≠ "" →
        parse line = Except.ok ⟨some "notifications/initialized", i⟩ →
        processLineV2 parse fwd line = [])
    ∧ (∀ req : WReq, handleV2 fwd req = Except.ok none
        ↔ req.method = some "notifications/initialized")
    ∧ (∀ i : Option Nat,
        handleV1 (R := R) fwd ⟨some "notifications/initialized", i⟩
          = (fwd ⟨some "notifications/initialized", i⟩).map WOut.forwarded) := by
  refine ⟨fun i => rfl, ?_, ?_, fun i => ?_⟩
  · intro parse line i hline hparse
    simp [processLineV2, hline, hparse, handleV2]
  · rintro ⟨m, i⟩
    constructor
    · intro h
      rcases m with _ | s
      · simp [handleV2] at h
      · simp only [handleV2] at h
        split at h <;> simp_all
        all_goals (split at h <;> simp_all)
    · rintro h
      simp only at h
      rw [h]
      rfl
  · simp [handleV1]

/-! ### Witnesses -/

/-- Witness for C1 at three concurrent callers on an empty manager. -/
theorem c1_single_flight_witness :
    (arrive (2 + 1) ⟨[], [], []⟩ "polydev" 0).2.2 = 1
    ∧ (arrive (2 + 1) ⟨[], [], []⟩ "polydev" 0).1
        = List.replicate (2 + 1) (Awaited.await 0)
    ∧ (arrive (2 + 1) ⟨[], [], []⟩ "polydev" 0).1.map
        (deliver (Except.error "spawn failed"))
        = List.replicate (2 + 1) (Except.error "spawn failed")
    ∧ mapGet "polydev"
        (settleOk (arrive (2 + 1) ⟨[], [], []⟩ "polydev" 0).2.1 "polydev" 7).clients
        = some 7
    ∧ mapGet "polydev"
        (settleErr (arrive (2 + 1) ⟨[], [], []⟩ "polydev" 0).2.1 "polydev").clients
        = none := by
  have h := c1_single_flight ⟨[], [], []⟩ "polydev" 2 0 7 rfl rfl
  exact ⟨h.1, h.2.1, h.2.2.1 _, h.2.2.2.1, h.2.2.2.2.2.2.1⟩

/-- Witness for C3 at empty registries and the unknown name ghost. -/
theorem c3_unknown_server_witness :
    createClientTrace [] "ghost"
      = Except.error ("Unknown stdio server: " ++ "ghost" ++ ". Available: "
          ++ availList ([] : List (String × StdioConf)))
    ∧ ioOf (createClientTrace [] "ghost") = []
    ∧ httpGetClientS ([] : List (String × HState Nat)) [] "ghost"
      = Except.error ("Unknown HTTP server: " ++ "ghost" ++ ". Available: "
          ++ availList ([] : List (String × HTTPConf))) := by
  have h := c3_unknown_server ([] : List (String × StdioConf))
      ([] : List (String × HTTPConf)) ([] : List (String × HState Nat)) "ghost"
      (NetOutcome.ok 0) (NetOutcome.ok 0) (fun _ => none) (fun _ => none)
      (fun _ => none) rfl rfl rfl
  exact ⟨h.1, h.2.1, h.2.2.1⟩

/-- Witness for C5 at an already-initialized client and a fresh one. -/
theorem c5_init_idempotent_witness :
    initCall (⟨0, true, none⟩ : HState Nat) (NetOutcome.ok 5)
      = (⟨0, true, none⟩, [], Except.ok ())
    ∧ (initCall (HState.start : HState Nat) (NetOutcome.ok 5)).2.1.map
        FetchCall.rpcMethod = ["initialize"]
    ∧ (initCall (HState.start : HState Nat) (NetOutcome.ok 5)).1.inited = true
    ∧ initIterFetches (⟨0, true, none⟩ : HState Nat)
        [NetOutcome.ok 5, NetOutcome.ok 6] = []
    ∧ initIterFetches (HState.start : HState Nat)
        [NetOutcome.ok 5, NetOutcome.ok 6]
        = (initCall (HState.start : HState Nat) (NetOutcome.ok 5)).2.1 := by
  have h1 := c5_init_idempotent (⟨0, true, none⟩ : HState Nat) (NetOutcome.ok 5)
  have h2 := c5_init_idempotent (HState.start : HState Nat) (NetOutcome.ok 5)
  exact ⟨h1.1 rfl, (h2.2.1 rfl).1, ((h2.2.1 rfl).2 5 rfl).1,
    h1.2.2.1 [NetOutcome.ok 5, NetOutcome.ok 6] rfl,
    h2.2.2.2 5 [NetOutcome.ok 6] rfl rfl⟩

/-- Witness for C6 at a timed-out tools/call line. -/
theorem c6_timeout_witness :
    processLinesV2 (fun _ => Except.ok ⟨some "tools/call", some 1⟩)
        (fun _ => forwardResult (R := Nat) FwdOutcome.timedOut) ["x"]
      = [WOut.internalErr "Request timed out after 180 seconds"]
    ∧ forwardFetch.timeoutMs = some 180000
    ∧ forwardAborted (R := Nat) FwdOutcome.timedOut = true := by
  have h := c6_timeout (R := Nat)
  exact ⟨h.2.2.2.2.2 (fun _ => Except.ok ⟨some "tools/call", some 1⟩) "x" []
      (by decide) rfl, h.1, h.2.2.1⟩

/-- Witness for C7 at a malformed line between two other lines. -/
theorem c7_malformed_line_witness :
    processLineV2 (R := Nat) (fun _ => Except.error "bad json")
        (fun _ => Except.ok 0) "nope"
      = [WOut.internalErr "bad json"]
    ∧ processLinesV2 (R := Nat) (fun _ => Except.error "bad json")
        (fun _ => Except.ok 0) (["a"] ++ "nope" :: ["b"])
      = processLinesV2 (fun _ => Except.error "bad json")
          (fun _ => Except.ok 0) ["a"]
        ++ WOut.internalErr "bad json"
          :: processLinesV2 (fun _ => Except.error "bad json")
              (fun _ => Except.ok 0) ["b"] := by
  have h := c7_malformed_line (R := Nat) (fun _ => Except.error "bad json")
      (fun _ => Except.ok 0) "nope" "bad json" (by decide) rfl
  exact ⟨h.1, h.2 ["a"] ["b"]⟩

/-- Witness for C8 at concrete one-entry caches. -/
theorem c8_disconnect_idempotent_witness :
    disconnectStdio "gone" (⟨[("other", 1)], [("other", 2)], []⟩ : StdioMgr)
      = (⟨[("other", 1)], [("other", 2)], []⟩, [])
    ∧ disconnectHTTP "gone" ([("other", HState.start)] : List (String × HState Nat))
      = [("other", HState.start)]
    ∧ mapGet "other"
        (disconnectStdio "x"
          (⟨[("other", 1), ("x", 5)], [("other", 2), ("x", 6)], []⟩ : StdioMgr)).1.clients
      = mapGet "other" ([("other", 1), ("x", 5)] : List (String × Nat)) := by
  have h := c8_disconnect_idempotent
  exact ⟨h.1 _ "gone" (by decide), h.2.2.2.1 [("other", HState.start)] "gone" (by decide),
    (h.2.2.1 _ "x" "other" (by decide)).1⟩

/-- Witness for C9 at a notifications/initialized line with no id. -/
theorem c9_notifications_witness :
    handleV2 (R := Nat) (fun _ => Except.ok 3)
        ⟨some "notifications/initialized", none⟩ = Except.ok none
    ∧ processLineV2 (R := Nat)
        (fun _ => Except.ok ⟨some "notifications/initialized", none⟩)
        (fun _ => Except.ok 3) "n" = [] := by
  have h := c9_notifications (R := Nat) (fun _ => Except.ok 3)
  exact ⟨h.1 none,
    h.2.1 (fun _ => Except.ok ⟨some "notifications/initialized", none⟩) "n" none
      (by decide) rfl⟩

/-- Witness for C2 at a result with no content array and a result whose
content field value 2 is not an array. -/
theorem c2_normalizer_witness :
    extractContent (V := Nat) (fun _ => none) (fun _ => none) 1
      = Normalized.raw 1
    ∧ extractContentHTTP (V := Nat) (fun _ => none)
        (fun r => if r = 1 then some 2 else none) (fun _ => none) 1
      = NormalizedH.contentVal 2 := by
  have h := c2_normalizer (V := Nat) (fun _ => none) (fun _ => none)
      (fun r => if r = 1 then some 2 else none) (fun _ => none) 0 1 2
  exact ⟨h.2.2.1 rfl, h.2.2.2 (by decide) rfl⟩

/-- Witness for C10 at a fresh HTTP client with a succeeding handshake, a
fresh HTTP client with a failing handshake, an already-initialized HTTP
client, a fresh stdio creation for a known server, and a cached stdio
session. -/
theorem c10_auto_init_witness :
    (callToolCall (HState.start : HState Nat) (NetOutcome.ok 1) (NetOutcome.ok 2)
        (fun _ => none) (fun _ => none) (fun _ => none)).2.1.map FetchCall.rpcMethod
      = ["initialize", "tools/call"]
    ∧ (callToolCall (HState.start : HState Nat) (NetOutcome.httpErr 500 "boom")
        (NetOutcome.ok 2) (fun _ => none) (fun _ => none) (fun _ => none)).2.1.map
        FetchCall.rpcMethod
      = ["initialize"]
    ∧ (listToolsCall (⟨3, true, some 9⟩ : HState Nat) (NetOutcome.ok 1)
        (NetOutcome.ok 2)).2.1.map FetchCall.rpcMethod
      = ["tools/list"]
    ∧ callMCPToolTrace [("git", ⟨"uvx", ["mcp-server-git"]⟩)] ⟨[], [], []⟩
        (Except.ok ()) "git"
      = Except.ok [IOAct.spawn "uvx" ["mcp-server-git"], IOAct.connect,
          IOAct.send "tools/call"]
    ∧ callMCPToolTrace [] ⟨[("git", 4)], [("git", 4)], []⟩ (Except.ok ()) "git"
      = Except.ok [IOAct.send "tools/call"] := by
  have h1 := c10_auto_init (HState.start : HState Nat) (NetOutcome.ok 1)
      (NetOutcome.ok 2) (fun _ => none) (fun _ => none) (fun _ => none)
  have h2 := c10_auto_init (HState.start : HState Nat)
      (NetOutcome.httpErr 500 "boom") (NetOutcome.ok 2) (fun _ => none)
      (fun _ => none) (fun _ => none)
  have h3 := c10_auto_init (⟨3, true, some 9⟩ : HState Nat) (NetOutcome.ok 1)
      (NetOutcome.ok 2) (fun _ => none) (fun _ => none) (fun _ => none)
  refine ⟨(h1.2.1 1 rfl rfl).1, (h2.2.2.1 rfl ?_).1, (h3.1 rfl).2,
    (h1.2.2.2.1 [("git", ⟨"uvx", ["mcp-server-git"]⟩)] ⟨[], [], []⟩
      (Except.ok ()) "git" ⟨"uvx", ["mcp-server-git"]⟩ rfl rfl (by decide)).1,
    h1.2.2.2.2.2.2 [] ⟨[("git", 4)], [("git", 4)], []⟩ (Except.ok ()) "git" 4
      (by decide)⟩
  intro v hv
  cases hv

end MCPSuperstack
